import Mathlib

/-!
Verification of the build persistence layer
(`app/db/models/builds/queries.server.ts`).

The TypeScript source is shallowly embedded below.  Pure transforms
(ability codec, mode canonicalization, weapon augmentation) become Lean
functions; the statement/transaction layer becomes explicit state passing
over a `DbState`, with a failure oracle injecting `StorageFailure` at any
statement.  JavaScript's stable `Array.prototype.sort` with a consistent
comparator `cmp` is modelled by `List.insertionSort` with the relation
`fun a b => cmp a b ≤ 0`, which is the same stable sort on total
preorders.  `JSON.parse` applied to the blobs arriving from storage is
modelled by letting the row carry the parsed value itself.
-/

namespace Builds

/-- Gear types, from the `GearType` union in the source. -/
inductive GearType
  | HEAD
  | CLOTHES
  | SHOES
deriving DecidableEq, BEq, Repr

/-- `const gearOrder: Array<BuildAbility["gearType"]> = ["HEAD", "CLOTHES", "SHOES"]`. -/
def gearOrder : List GearType := [.HEAD, .CLOTHES, .SHOES]

/-- One normalized ability row: `Pick<BuildAbility, "ability" | "gearType" | "slotIndex">`.
The ability identifier type is abstract (`α`). -/
structure AbilityCell (α : Type) where
  ability : α
  gearType : GearType
  slotIndex : Nat
deriving DecidableEq, Repr

/-- `gearOrder.indexOf g`, the rank of a gear type in `gearOrder`. -/
def gearIdx (g : GearType) : Nat := gearOrder.indexOf g

/-- The JS comparator used in `dbAbilitiesToArrayOfArrays`:
`if (a.gearType === b.gearType) return a.slotIndex - b.slotIndex;
 return gearOrder.indexOf(a.gearType) - gearOrder.indexOf(b.gearType)`. -/
def cmpCells {α : Type} (a b : AbilityCell α) : Int :=
  if a.gearType = b.gearType then (a.slotIndex : Int) - (b.slotIndex : Int)
  else (gearIdx a.gearType : Int) - (gearIdx b.gearType : Int)

/-- `a` sorts no later than `b` under the ability-cell comparator. -/
def cellLe {α : Type} (a b : AbilityCell α) : Prop := cmpCells a b ≤ 0

instance {α : Type} : DecidableRel (cellLe (α := α)) :=
  fun a b => inferInstanceAs (Decidable (cmpCells a b ≤ 0))

/-- One row of the structured ability matrix (4 slots). -/
abbrev AbilityRow (α : Type) := α × α × α × α

/-- The structured 3×4 ability matrix, `BuildAbilitiesTuple`. -/
abbrev BuildAbilitiesTuple (α : Type) := AbilityRow α × AbilityRow α × AbilityRow α

/-- `rowI === 0 ? "HEAD" : rowI === 1 ? "CLOTHES" : "SHOES"` from `create`. -/
def gearTypeOfRow (rowI : Nat) : GearType :=
  if rowI = 0 then .HEAD else if rowI = 1 then .CLOTHES else .SHOES

/-- `row.entries()` for one 4-slot ability row. -/
def rowEntries {α : Type} (r : AbilityRow α) : List (Nat × α) :=
  [(0, r.1), (1, r.2.1), (2, r.2.2.1), (3, r.2.2.2)]

/-- `build.abilities.entries()`. -/
def abilityEntries {α : Type} (m : BuildAbilitiesTuple α) : List (Nat × AbilityRow α) :=
  [(0, m.1), (1, m.2.1), (2, m.2.2)]

/-- The ability loop of `create`: for each `(rowI, row)` of the matrix and
each `(abilityI, ability)` of the row, one cell
`{gearType, ability, slotIndex: abilityI}` is emitted, in loop order. -/
def createAbilityCells {α : Type} (m : BuildAbilitiesTuple α) : List (AbilityCell α) :=
  (abilityEntries m).flatMap fun rowE =>
    (rowEntries rowE.2).map fun slotE =>
      { ability := slotE.2, gearType := gearTypeOfRow rowE.1, slotIndex := slotE.1 }

/-- The tail of `dbAbilitiesToArrayOfArrays` after sorting and projecting:
`invariant(sorted.length === 12)` followed by the slicing into three rows of
four (`[[sorted[0], ...], [sorted[4], ...], [sorted[8], ...]]`). -/
def sliceAbilities {α : Type} (sorted : List α) : Except String (BuildAbilitiesTuple α) :=
  if h : sorted.length = 12 then
    .ok ((sorted.get ⟨0, by omega⟩, sorted.get ⟨1, by omega⟩,
          sorted.get ⟨2, by omega⟩, sorted.get ⟨3, by omega⟩),
         (sorted.get ⟨4, by omega⟩, sorted.get ⟨5, by omega⟩,
          sorted.get ⟨6, by omega⟩, sorted.get ⟨7, by omega⟩),
         (sorted.get ⟨8, by omega⟩, sorted.get ⟨9, by omega⟩,
          sorted.get ⟨10, by omega⟩, sorted.get ⟨11, by omega⟩))
  else .error "expected 12 abilities"

/-- `dbAbilitiesToArrayOfArrays`: stable-sort the cells by the comparator,
project to abilities, require exactly 12, and slice into the 3×4 matrix. -/
def dbAbilitiesToArrayOfArrays {α : Type} (abilities : List (AbilityCell α)) :
    Except String (BuildAbilitiesTuple α) :=
  sliceAbilities ((List.insertionSort cellLe abilities).map (fun a => a.ability))

/-! ### Properties of the ability-cell order -/

theorem gearIdx_HEAD : gearIdx .HEAD = 0 := rfl

theorem gearIdx_CLOTHES : gearIdx .CLOTHES = 1 := rfl

theorem gearIdx_SHOES : gearIdx .SHOES = 2 := rfl

theorem gearIdx_inj {g h : GearType} (e : gearIdx g = gearIdx h) : g = h := by
  revert e; cases g <;> cases h <;> decide

theorem cellLe_iff {α : Type} (a b : AbilityCell α) :
    cellLe a b ↔
      gearIdx a.gearType < gearIdx b.gearType ∨
        (a.gearType = b.gearType ∧ a.slotIndex ≤ b.slotIndex) := by
  obtain ⟨xa, ga, sa⟩ := a
  obtain ⟨xb, gb, sb⟩ := b
  cases ga <;> cases gb <;>
    simp [cellLe, cmpCells, gearIdx_HEAD, gearIdx_CLOTHES, gearIdx_SHOES]

instance {α : Type} : IsTotal (AbilityCell α) cellLe := by
  constructor
  intro a b
  rw [cellLe_iff, cellLe_iff]
  rcases Nat.lt_trichotomy (gearIdx a.gearType) (gearIdx b.gearType) with h | h | h
  · exact Or.inl (Or.inl h)
  · rcases Nat.le_total a.slotIndex b.slotIndex with hs | hs
    · exact Or.inl (Or.inr ⟨gearIdx_inj h, hs⟩)
    · exact Or.inr (Or.inr ⟨gearIdx_inj h.symm, hs⟩)
  · exact Or.inr (Or.inl h)

instance {α : Type} : IsTrans (AbilityCell α) cellLe := by
  constructor
  intro a b c hab hbc
  rw [cellLe_iff] at hab hbc ⊢
  rcases hab with h1 | ⟨e1, s1⟩ <;> rcases hbc with h2 | ⟨e2, s2⟩
  · exact Or.inl (h1.trans h2)
  · exact Or.inl (by rw [← e2]; exact h1)
  · exact Or.inl (by rw [e1]; exact h2)
  · exact Or.inr ⟨e1.trans e2, s1.trans s2⟩

/-- The flattened index of a cell: gear-type rank times 4 plus slot index. -/
def keyN {α : Type} (c : AbilityCell α) : Nat := 4 * gearIdx c.gearType + c.slotIndex

/-- The cell `create` emits at flattened position `k` for matrix `m`. -/
def cellOfKey {α : Type} (m : BuildAbilitiesTuple α) : Nat → AbilityCell α
  | 0 => ⟨m.1.1, .HEAD, 0⟩
  | 1 => ⟨m.1.2.1, .HEAD, 1⟩
  | 2 => ⟨m.1.2.2.1, .HEAD, 2⟩
  | 3 => ⟨m.1.2.2.2, .HEAD, 3⟩
  | 4 => ⟨m.2.1.1, .CLOTHES, 0⟩
  | 5 => ⟨m.2.1.2.1, .CLOTHES, 1⟩
  | 6 => ⟨m.2.1.2.2.1, .CLOTHES, 2⟩
  | 7 => ⟨m.2.1.2.2.2, .CLOTHES, 3⟩
  | 8 => ⟨m.2.2.1, .SHOES, 0⟩
  | 9 => ⟨m.2.2.2.1, .SHOES, 1⟩
  | 10 => ⟨m.2.2.2.2.1, .SHOES, 2⟩
  | _ => ⟨m.2.2.2.2.2, .SHOES, 3⟩

/-- `create`'s cell list, written out. -/
theorem createAbilityCells_eq {α : Type} (m : BuildAbilitiesTuple α) :
    createAbilityCells m =
      [⟨m.1.1, .HEAD, 0⟩, ⟨m.1.2.1, .HEAD, 1⟩, ⟨m.1.2.2.1, .HEAD, 2⟩, ⟨m.1.2.2.2, .HEAD, 3⟩,
       ⟨m.2.1.1, .CLOTHES, 0⟩, ⟨m.2.1.2.1, .CLOTHES, 1⟩,
       ⟨m.2.1.2.2.1, .CLOTHES, 2⟩, ⟨m.2.1.2.2.2, .CLOTHES, 3⟩,
       ⟨m.2.2.1, .SHOES, 0⟩, ⟨m.2.2.2.1, .SHOES, 1⟩,
       ⟨m.2.2.2.2.1, .SHOES, 2⟩, ⟨m.2.2.2.2.2, .SHOES, 3⟩] := rfl

theorem mem_createAbilityCells {α : Type} (m : BuildAbilitiesTuple α)
    (x : AbilityCell α) (hx : x ∈ createAbilityCells m) :
    x = cellOfKey m (keyN x) ∧ x.slotIndex ≤ 3 := by
  rw [createAbilityCells_eq] at hx
  simp only [List.mem_cons, List.not_mem_nil, or_false] at hx
  rcases hx with rfl | rfl | rfl | rfl | rfl | rfl | rfl | rfl | rfl | rfl | rfl | rfl <;>
    exact ⟨rfl, by simp⟩

theorem map_keyN_createAbilityCells {α : Type} (m : BuildAbilitiesTuple α) :
    (createAbilityCells m).map keyN = [0, 1, 2, 3, 4, 5, 6, 7, 8, 9, 10, 11] := rfl

/-- `create`'s cell list is already in comparator order. -/
theorem sorted_createAbilityCells {α : Type} (m : BuildAbilitiesTuple α) :
    List.Sorted cellLe (createAbilityCells m) := by
  rw [List.Sorted, createAbilityCells_eq]
  refine List.Pairwise.cons ?_ (List.Pairwise.cons ?_ (List.Pairwise.cons ?_
    (List.Pairwise.cons ?_ (List.Pairwise.cons ?_ (List.Pairwise.cons ?_
    (List.Pairwise.cons ?_ (List.Pairwise.cons ?_ (List.Pairwise.cons ?_
    (List.Pairwise.cons ?_ (List.Pairwise.cons ?_ (List.Pairwise.cons ?_
    List.Pairwise.nil)))))))))))
  all_goals intro y hy
  all_goals fin_cases hy <;> rw [cellLe_iff] <;>
    first
      | (left; simp [gearIdx_HEAD, gearIdx_CLOTHES, gearIdx_SHOES]; done)
      | (right; exact ⟨rfl, by simp⟩)

/-- Sorting any permutation of `create`'s cell list recovers that list:
the 12 cells carry pairwise-distinct `(gearType, slotIndex)` keys, so the
comparator admits exactly one sorted arrangement. -/
theorem insertionSort_perm_encode {α : Type} (m : BuildAbilitiesTuple α)
    (l : List (AbilityCell α)) (h : l.Perm (createAbilityCells m)) :
    List.insertionSort cellLe l = createAbilityCells m := by
  have hp : (List.insertionSort cellLe l).Perm (createAbilityCells m) :=
    (List.perm_insertionSort cellLe l).trans h
  have hs : List.Sorted cellLe (List.insertionSort cellLe l) :=
    List.sorted_insertionSort cellLe l
  have hmem : ∀ x ∈ List.insertionSort cellLe l,
      x = cellOfKey m (keyN x) ∧ x.slotIndex ≤ 3 :=
    fun x hx => mem_createAbilityCells m x (hp.mem_iff.mp hx)
  -- the key images are a permutation of [0, ..., 11]
  have hpk : ((List.insertionSort cellLe l).map keyN).Perm
      [0, 1, 2, 3, 4, 5, 6, 7, 8, 9, 10, 11] := by
    rw [← map_keyN_createAbilityCells m]
    exact hp.map keyN
  have hnd : ((List.insertionSort cellLe l).map keyN).Nodup :=
    hpk.nodup_iff.mpr (by decide)
  -- hence the sort is strictly increasing on keys
  have hkeys : List.Sorted (· < ·) ((List.insertionSort cellLe l).map keyN) := by
    rw [List.Sorted, List.pairwise_map]
    rw [List.Nodup, List.pairwise_map] at hnd
    have hand := hs.and hnd
    refine hand.imp_of_mem ?_
    intro a b ha hb hab
    obtain ⟨hle, hne⟩ := hab
    rw [cellLe_iff] at hle
    have hsa : a.slotIndex ≤ 3 := (hmem a ha).2
    unfold keyN at hne ⊢
    rcases hle with hlt | ⟨he, hsle⟩
    · omega
    · rw [he] at hne ⊢; omega
  have henc : List.Sorted (· < ·)
      (([0, 1, 2, 3, 4, 5, 6, 7, 8, 9, 10, 11] : List Nat)) := by decide
  haveI : IsAntisymm Nat (· < ·) :=
    ⟨fun a b h1 h2 => absurd (h1.trans h2) (lt_irrefl a)⟩
  have heq : (List.insertionSort cellLe l).map keyN =
      [0, 1, 2, 3, 4, 5, 6, 7, 8, 9, 10, 11] :=
    List.eq_of_perm_of_sorted hpk hkeys henc
  -- recover the lists from their key images
  have recover : ∀ t : List (AbilityCell α),
      (∀ x ∈ t, x = cellOfKey m (keyN x)) →
      t = (t.map keyN).map (cellOfKey m) := by
    intro t ht
    rw [List.map_map]
    conv_lhs => rw [← List.map_id t]
    exact List.map_congr_left fun x hx => (ht x hx)
  have h1 : List.insertionSort cellLe l =
      ((List.insertionSort cellLe l).map keyN).map (cellOfKey m) :=
    recover _ fun x hx => (hmem x hx).1
  have h2 : createAbilityCells m =
      ((createAbilityCells m).map keyN).map (cellOfKey m) :=
    recover _ fun x hx => (mem_createAbilityCells m x hx).1
  rw [h1, heq, h2, map_keyN_createAbilityCells m]

/-- Decoding `create`'s own cell list gives back the matrix. -/
theorem decode_encode {α : Type} (m : BuildAbilitiesTuple α) :
    dbAbilitiesToArrayOfArrays (createAbilityCells m) = .ok m := by
  rw [dbAbilitiesToArrayOfArrays, (sorted_createAbilityCells m).insertionSort_eq]
  rfl

/-! ### Mode-set encoding -/

/-- Modelled from the spec: the catalog collaborator's mode identifiers
(`ModeShort` from `~/modules/in-game-lists`, not under `src/`). -/
inductive ModeShort
  | TW
  | SZ
  | TC
  | RM
  | CB
deriving DecidableEq, BEq, Repr

/-- Modelled from the spec: the canonical global mode-ordering table
(`modesShort` from the catalog collaborator, not under `src/`). -/
def modesShort : List ModeShort := [.TW, .SZ, .TC, .RM, .CB]

/-- Rank of a mode in the canonical table (JS `modesShort.indexOf`). -/
def modeIdx (m : ModeShort) : Nat := modesShort.indexOf m

/-- The JS comparator of `create`'s mode sort:
`(a, b) => modesShort.indexOf(a) - modesShort.indexOf(b)`. -/
def modeLe (a b : ModeShort) : Prop := (modeIdx a : Int) - (modeIdx b : Int) ≤ 0

instance : DecidableRel modeLe :=
  fun a b => inferInstanceAs (Decidable ((modeIdx a : Int) - (modeIdx b : Int) ≤ 0))

instance : IsTotal ModeShort modeLe :=
  ⟨fun a b => by unfold modeLe; omega⟩

instance : IsTrans ModeShort modeLe :=
  ⟨fun a b c hab hbc => by unfold modeLe at hab hbc ⊢; omega⟩

/-- The name JS serializes for each mode (`JSON.stringify` of the string). -/
def modeShortName : ModeShort → String
  | .TW => "TW"
  | .SZ => "SZ"
  | .TC => "TC"
  | .RM => "RM"
  | .CB => "CB"

/-- `JSON.stringify` of a mode array, e.g. `["SZ","TC"]`. -/
def stringifyModes (ms : List ModeShort) : String :=
  "[" ++ String.intercalate ","
    (ms.map (fun m => "\"" ++ modeShortName m ++ "\"")) ++ "]"

/-- The `modes` value bound by `create`:
`build.modes && build.modes.length > 0
   ? JSON.stringify(build.modes.slice().sort(...)) : null`. -/
def modesValue (modes : Option (List ModeShort)) : Option String :=
  match modes with
  | none => none
  | some ms =>
    if ms.length > 0 then
      some (stringifyModes (List.insertionSort modeLe ms))
    else none

theorem modeIdx_inj {a b : ModeShort} (h : modeIdx a = modeIdx b) : a = b := by
  revert h; cases a <;> cases b <;> decide

instance : IsAntisymm ModeShort modeLe :=
  ⟨fun a b h1 h2 => by
    unfold modeLe at h1 h2
    exact modeIdx_inj (by omega)⟩

/-! ### Read-side augmentation -/

/-- One entry of the parsed weapon blob:
`BuildWeaponWithTop500Info` (`weaponSplId`, `minRank`, `maxPower`). -/
structure BuildWeaponWithTop500Info where
  weaponSplId : Int
  minRank : Option Int
  maxPower : Option Int
deriving DecidableEq, Repr

/-- The JS comparator of `augmentBuild`'s weapon sort:
`(a, b) => a.weaponSplId - b.weaponSplId`. -/
def weaponLe (a b : BuildWeaponWithTop500Info) : Prop :=
  a.weaponSplId - b.weaponSplId ≤ 0

instance : DecidableRel weaponLe :=
  fun a b => inferInstanceAs (Decidable (a.weaponSplId - b.weaponSplId ≤ 0))

instance : IsTotal BuildWeaponWithTop500Info weaponLe :=
  ⟨fun a b => by unfold weaponLe; omega⟩

instance : IsTrans BuildWeaponWithTop500Info weaponLe :=
  ⟨fun a b c hab hbc => by unfold weaponLe at hab hbc ⊢; omega⟩

/-- Ability identifiers as stored (`BuildAbility["ability"]` is a string union). -/
abbrev Ability := String

/-- One raw row of `buildsByUserId` (`BuildsByUserRow`).  The serialized
`weapons`/`abilities` blobs and the `modes` column arrive here as their
parsed values (`JSON.parse` of external JSON is modelled as done). -/
structure BuildsByUserRow where
  id : Int
  title : String
  description : Option String
  modes : Option (List ModeShort)
  headGearSplId : Int
  clothesGearSplId : Int
  shoesGearSplId : Int
  updatedAt : Int
  «private» : Bool
  weapons : List BuildWeaponWithTop500Info
  abilities : List (AbilityCell Ability)
deriving DecidableEq, Repr

/-- Owner-identity fields carried only by `buildsByWeaponId` rows. -/
structure UserIdentity where
  discordId : String
  discordName : String
  discordDiscriminator : String
  plusTier : Option Int
deriving DecidableEq, Repr

/-- One raw row of `buildsByWeaponId` (`BuildsByWeaponIdRow`). -/
structure BuildsByWeaponIdRow extends BuildsByUserRow where
  user : UserIdentity
deriving DecidableEq, Repr

/-- The structured build returned by the read queries. -/
structure AugmentedBuild where
  id : Int
  title : String
  description : Option String
  modes : Option (List ModeShort)
  headGearSplId : Int
  clothesGearSplId : Int
  shoesGearSplId : Int
  updatedAt : Int
  «private» : Bool
  weapons : List BuildWeaponWithTop500Info
  abilities : BuildAbilitiesTuple Ability
deriving DecidableEq, Repr

/-- `augmentBuild`: decode modes, sort the weapon list ascending by
`weaponSplId`, and decode the ability rows; the `invariant` failure of
the ability decoder propagates. -/
def augmentBuild (row : BuildsByUserRow) : Except String AugmentedBuild := do
  let abilities ← dbAbilitiesToArrayOfArrays row.abilities
  .ok { id := row.id, title := row.title, description := row.description,
        modes := row.modes,
        headGearSplId := row.headGearSplId,
        clothesGearSplId := row.clothesGearSplId,
        shoesGearSplId := row.shoesGearSplId,
        updatedAt := row.updatedAt, «private» := row.«private»,
        weapons := List.insertionSort weaponLe row.weapons,
        abilities := abilities }

/-- `rows.map(augmentBuild)` with a thrown error propagating: the list is
mapped left to right and the first failure aborts. -/
def mapRows {ρ β : Type} (f : ρ → Except String β) : List ρ → Except String (List β)
  | [] => .ok []
  | r :: rs =>
    match f r with
    | .error e => .error e
    | .ok b =>
      match mapRows f rs with
      | .error e => .error e
      | .ok bs => .ok (b :: bs)

/-- `buildsByUserId`, from the raw rows the statement returned. -/
def buildsByUserId (rows : List BuildsByUserRow) : Except String (List AugmentedBuild) :=
  mapRows augmentBuild rows

/-- `buildsByWeaponId`'s augmentation of its raw rows (each row also
carries the owner identity; the build part is augmented identically). -/
def buildsByWeaponIdAugment (rows : List BuildsByWeaponIdRow) :
    Except String (List (AugmentedBuild × UserIdentity)) :=
  mapRows (fun r => (augmentBuild r.toBuildsByUserRow).map (fun b => (b, r.user))) rows

/-- The parameter record `buildsByWeaponId` binds for its statement. -/
structure WeaponQueryParams where
  weaponId : Int
  altWeaponId : Int
  limit : Int
deriving DecidableEq, Repr

/-- `weaponIdToAltId.get(weaponId)`, the alternate-identifier lookup from
the catalog collaborator (not under `src/`): modelled as an association
list given as a parameter. -/
def weaponIdToAltIdGet (altMap : List (Int × Int)) (weaponId : Int) : Option Int :=
  (altMap.find? (fun p => p.1 == weaponId)).map (fun p => p.2)

/-- The parameters `buildsByWeaponId` passes to its statement:
`{ weaponId, altWeaponId: weaponIdToAltId.get(weaponId) ?? -1, limit }`. -/
def buildsByWeaponIdParams (altMap : List (Int × Int)) (weaponId : Int)
    (limit : Int) : WeaponQueryParams :=
  { weaponId := weaponId,
    altWeaponId := (weaponIdToAltIdGet altMap weaponId).getD (-1),
    limit := limit }

/-- Modelled from the spec: the `buildsByWeaponId.sql` statement (not under
`src/`) matches a build weapon row when its identifier equals the primary
or the alternate parameter. -/
def rowMatchesWeaponFilter (p : WeaponQueryParams) (weaponSplId : Int) : Prop :=
  weaponSplId = p.weaponId ∨ weaponSplId = p.altWeaponId

/-- Modelled from the spec: real weapon identifiers are never negative, so
`-1` is an "impossible weapon id". -/
def isRealWeaponId (weaponSplId : Int) : Prop := 0 ≤ weaponSplId

/-! ### Write-side state model

Each prepared statement acts on an explicit storage state.  A failure
oracle `fl : Nat → Bool` (statement counter `k`; `fl k = true` means the
`k`-th executed statement raises `StorageFailure`) injects arbitrary
mid-sequence failures.  `sqlTransaction` is the storage engine's
transaction wrapper, modelled from the spec: it executes the unit of work
atomically and re-raises any internal failure after rolling the state
back. -/

/-- One persisted `Build` row. -/
structure BuildRow where
  id : Int
  ownerId : Int
  title : String
  description : Option String
  modes : Option String
  headGearSplId : Int
  clothesGearSplId : Int
  shoesGearSplId : Int
  «private» : Bool
deriving DecidableEq, Repr

/-- One persisted `BuildWeapon` row. -/
structure BuildWeaponRow where
  buildId : Int
  weaponSplId : Int
deriving DecidableEq, Repr

/-- One persisted `BuildAbility` row. -/
structure BuildAbilityRow where
  buildId : Int
  gearType : GearType
  ability : Ability
  slotIndex : Nat
deriving DecidableEq, Repr

/-- The storage state: the three tables and the id generator. -/
structure DbState where
  builds : List BuildRow
  buildWeapons : List BuildWeaponRow
  buildAbilities : List BuildAbilityRow
  nextId : Int
deriving DecidableEq, Repr

/-- The `CreateArgs` record taken by `create`. -/
structure CreateArgs where
  ownerId : Int
  title : String
  description : Option String
  modes : Option (List ModeShort)
  headGearSplId : Int
  clothesGearSplId : Int
  shoesGearSplId : Int
  weaponSplIds : List Int
  abilities : BuildAbilitiesTuple Ability
  «private» : Bool
deriving DecidableEq, Repr

/-- `CreateArgs & { id: Build["id"] }` taken by `updateByReplacing`. -/
structure UpdateArgs extends CreateArgs where
  id : Int
deriving DecidableEq, Repr

/-- `createBuildStm.get({...})`: insert the scalar row (with the modes
column encoded by `modesValue`) and return it with the generated id. -/
def createBuildStmRun (b : CreateArgs) (st : DbState) : DbState × BuildRow :=
  let row : BuildRow :=
    { id := st.nextId, ownerId := b.ownerId, title := b.title,
      description := b.description, modes := modesValue b.modes,
      headGearSplId := b.headGearSplId, clothesGearSplId := b.clothesGearSplId,
      shoesGearSplId := b.shoesGearSplId, «private» := b.«private» }
  ({ st with builds := st.builds ++ [row], nextId := st.nextId + 1 }, row)

/-- `createBuildWeaponStm.run({ buildId, weaponSplId })`. -/
def createBuildWeaponStmRun (buildId weaponSplId : Int) (st : DbState) : DbState :=
  { st with buildWeapons := st.buildWeapons ++ [⟨buildId, weaponSplId⟩] }

/-- `createBuildAbilityStm.run({ buildId, gearType, ability, slotIndex })`. -/
def createBuildAbilityStmRun (buildId : Int) (c : AbilityCell Ability)
    (st : DbState) : DbState :=
  { st with buildAbilities :=
      st.buildAbilities ++ [⟨buildId, c.gearType, c.ability, c.slotIndex⟩] }

/-- `deleteByIdStm.run({ id })` plus the storage engine's foreign-key
cascade on the dependent weapon and ability rows (the cascade is the
engine's, per the spec). -/
def deleteByIdStmRun (id : Int) (st : DbState) : DbState :=
  { st with
    builds := st.builds.filter (fun b => b.id ≠ id),
    buildWeapons := st.buildWeapons.filter (fun w => w.buildId ≠ id),
    buildAbilities := st.buildAbilities.filter (fun a => a.buildId ≠ id) }

/-- The weapon loop of `create`: one `createBuildWeaponStm.run` per input
weapon id, in input order, each a fallible statement. -/
def insertWeapons (fl : Nat → Bool) (buildId : Int) :
    List Int → DbState → Nat → Except String (DbState × Nat)
  | [], st, k => .ok (st, k)
  | w :: ws, st, k =>
    if fl k then .error "StorageFailure"
    else insertWeapons fl buildId ws (createBuildWeaponStmRun buildId w st) (k + 1)

/-- The ability loop of `create`: one `createBuildAbilityStm.run` per cell
of `createAbilityCells`, in loop order, each a fallible statement. -/
def insertAbilities (fl : Nat → Bool) (buildId : Int) :
    List (AbilityCell Ability) → DbState → Nat → Except String (DbState × Nat)
  | [], st, k => .ok (st, k)
  | c :: cs, st, k =>
    if fl k then .error "StorageFailure"
    else insertAbilities fl buildId cs (createBuildAbilityStmRun buildId c st) (k + 1)

/-- The body of `create`: build insert, weapon inserts, ability inserts. -/
def createBody (fl : Nat → Bool) (b : CreateArgs) (st : DbState) (k : Nat) :
    Except String (DbState × Nat) :=
  if fl k then .error "StorageFailure"
  else
    let (st1, row) := createBuildStmRun b st
    match insertWeapons fl row.id b.weaponSplIds st1 (k + 1) with
    | .error e => .error e
    | .ok (st2, k2) => insertAbilities fl row.id (createAbilityCells b.abilities) st2 k2

/-- Modelled from the spec: `sql.transaction` (from `~/db/sql`, not under
`src/`) executes the unit of work atomically — on success the new state is
kept, and any internal failure is re-raised after rollback, leaving the
state it started from. -/
def sqlTransaction (body : DbState → Except String (DbState × Nat)) (st : DbState) :
    DbState × Option String :=
  match body st with
  | .ok (st2, _) => (st2, none)
  | .error e => (st, some e)

/-- `create = sql.transaction((build) => {...})` executed at top level. -/
def create (fl : Nat → Bool) (b : CreateArgs) (st : DbState) : DbState × Option String :=
  sqlTransaction (fun s => createBody fl b s 0) st

/-- The body of `updateByReplacing`: `deleteByIdStm.run({ id })` then the
inner `create(build)` call.  The inner call is a transaction function
invoked while this one is open, so the engine runs its body as a nested
unit (a savepoint) whose failure propagates to the enclosing transaction. -/
def updateByReplacingBody (fl : Nat → Bool) (b : UpdateArgs) (st : DbState)
    (k : Nat) : Except String (DbState × Nat) :=
  if fl k then .error "StorageFailure"
  else createBody fl b.toCreateArgs (deleteByIdStmRun b.id st) (k + 1)

/-- `updateByReplacing = sql.transaction((build) => { deleteByIdStm.run; create(build) })`. -/
def updateByReplacing (fl : Nat → Bool) (b : UpdateArgs) (st : DbState) :
    DbState × Option String :=
  sqlTransaction (fun s => updateByReplacingBody fl b s 0) st

/-- `deleteById`: a single statement, no transaction wrapper. -/
def deleteById (id : Int) (st : DbState) : DbState :=
  deleteByIdStmRun id st

/-! ### countByUserId -/

/-- The single row `countByUserIdStm.get` returns. -/
structure CountRow where
  count : Int
deriving DecidableEq, Repr

/-- `countByUserId`: `(countByUserIdStm.get({...})?.count ?? 0) as number`. -/
def countByUserId (getResult : Option CountRow) : Int :=
  match getResult with
  | some row => row.count
  | none => 0

/-- Modelled from the spec: `countByUserId.sql` (not under `src/`) counts
the builds matching the owner/visibility filter; the filter itself is the
external policy, taken as a parameter. -/
def countByUserIdStmGet (storage : List BuildRow) (pred : BuildRow → Bool) :
    Option CountRow :=
  some ⟨((storage.filter pred).length : Int)⟩

/-! ### Transaction nesting traces

Modelled from the spec: the engine's transaction wrapper begins a
transaction only when none is open; a transaction function invoked while
one is open runs as a nested unit (savepoint) instead.  The trace of an
operation records the transaction-control commands this layer causes, plus
one `stmtRun` per prepared-statement execution. -/

inductive TxEv
  | begin
  | commit
  | savepoint
  | release
  | stmtRun
deriving DecidableEq, Repr

/-- The wrapper's trace around a body: `BEGIN ... COMMIT` at depth 0,
`SAVEPOINT ... RELEASE` when a transaction is already open. -/
def txWrap (depth : Nat) (body : List TxEv) : List TxEv :=
  if depth = 0 then .begin :: body ++ [.commit]
  else .savepoint :: body ++ [.release]

/-- The statements `create`'s body executes, one event each. -/
def createBodyTrace (b : CreateArgs) : List TxEv :=
  .stmtRun :: (b.weaponSplIds.map fun _ => .stmtRun) ++
    ((createAbilityCells b.abilities).map fun _ => .stmtRun)

/-- The trace of `create` when invoked with `depth` transactions open. -/
def createTrace (depth : Nat) (b : CreateArgs) : List TxEv :=
  txWrap depth (createBodyTrace b)

/-- The trace of `updateByReplacing` at top level: its own transaction,
the delete statement, then the inner `create` call at depth 1. -/
def updateByReplacingTrace (b : UpdateArgs) : List TxEv :=
  txWrap 0 (.stmtRun :: createTrace 1 b.toCreateArgs)

/-- The trace of `deleteById`: one statement, no transaction. -/
def deleteByIdTrace : List TxEv := [.stmtRun]

/-- Running (open-transaction count, maximum so far) after one event. -/
def txStep (acc : Nat × Nat) (e : TxEv) : Nat × Nat :=
  match e with
  | .begin => (acc.1 + 1, max acc.2 (acc.1 + 1))
  | .commit => (acc.1 - 1, acc.2)
  | _ => acc

/-- The largest number of simultaneously open transactions along a trace. -/
def maxOpenTx (t : List TxEv) : Nat :=
  (t.foldl txStep (0, 0)).2

/-! ### Helper lemmas for the claims -/

theorem length_createAbilityCells {α : Type} (m : BuildAbilitiesTuple α) :
    (createAbilityCells m).length = 12 := rfl

/-- Entry `(r, c)` of the structured matrix. -/
def mAt {α : Type} (m : BuildAbilitiesTuple α) (r c : Nat) : α :=
  match r, c with
  | 0, 0 => m.1.1
  | 0, 1 => m.1.2.1
  | 0, 2 => m.1.2.2.1
  | 0, _ => m.1.2.2.2
  | 1, 0 => m.2.1.1
  | 1, 1 => m.2.1.2.1
  | 1, 2 => m.2.1.2.2.1
  | 1, _ => m.2.1.2.2.2
  | _, 0 => m.2.2.1
  | _, 1 => m.2.2.2.1
  | _, 2 => m.2.2.2.2.1
  | _, _ => m.2.2.2.2.2

instance : DecidablePred isRealWeaponId :=
  fun w => inferInstanceAs (Decidable (0 ≤ w))

theorem sqlTransaction_rollback (body : DbState → Except String (DbState × Nat))
    (st : DbState) (e : String) (h : (sqlTransaction body st).2 = some e) :
    (sqlTransaction body st).1 = st := by
  unfold sqlTransaction at h ⊢
  cases hb : body st with
  | ok p =>
    obtain ⟨st2, k2⟩ := p
    rw [hb] at h
    exact Option.noConfusion h
  | error e2 => rfl

theorem mapRows_mem {ρ β : Type} (f : ρ → Except String β) :
    ∀ (rs : List ρ) (bs : List β), mapRows f rs = .ok bs →
      ∀ b ∈ bs, ∃ r ∈ rs, f r = .ok b := by
  intro rs
  induction rs with
  | nil =>
    intro bs h b hb
    unfold mapRows at h
    cases h
    simp at hb
  | cons r rs ih =>
    intro bs h b hb
    unfold mapRows at h
    cases hf : f r with
    | error e => rw [hf] at h; cases h
    | ok b0 =>
      rw [hf] at h
      cases hm : mapRows f rs with
      | error e => rw [hm] at h; cases h
      | ok bs0 =>
        rw [hm] at h
        cases h
        cases hb with
        | head => exact ⟨r, List.mem_cons_self r rs, hf⟩
        | tail _ hb2 =>
          obtain ⟨r2, hr2, hfr2⟩ := ih bs0 hm b hb2
          exact ⟨r2, List.mem_cons_of_mem r hr2, hfr2⟩

theorem augmentBuild_ok_weapons (row : BuildsByUserRow) (b : AugmentedBuild)
    (h : augmentBuild row = .ok b) :
    b.weapons = List.insertionSort weaponLe row.weapons := by
  unfold augmentBuild at h
  cases hd : dbAbilitiesToArrayOfArrays row.abilities with
  | error e => rw [hd] at h; cases h
  | ok m =>
    rw [hd] at h
    cases h
    rfl

/-! ### Claims -/

/-- C1: for every valid 3×4 ability matrix `m`, encoding it to 12
`(gearType, slotIndex, ability)` cells as `create`'s ability loop does and
then decoding any permutation of those 12 cells with
`dbAbilitiesToArrayOfArrays` returns the matrix `m`; decode re-sorts, so
the result is independent of the order the cells are presented in. -/
theorem c1_ability_round_trip {α : Type} (m : BuildAbilitiesTuple α)
    (l : List (AbilityCell α)) (h : l.Perm (createAbilityCells m)) :
    dbAbilitiesToArrayOfArrays l = .ok m := by
  rw [dbAbilitiesToArrayOfArrays, insertionSort_perm_encode m l h]
  rfl

/-- Witness for C1 at a concrete matrix and a shuffled cell list. -/
theorem c1_ability_round_trip_witness :
    dbAbilitiesToArrayOfArrays
      ([⟨5, .CLOTHES, 0⟩, ⟨1, .HEAD, 0⟩, ⟨9, .SHOES, 0⟩, ⟨2, .HEAD, 1⟩,
        ⟨6, .CLOTHES, 1⟩, ⟨10, .SHOES, 1⟩, ⟨3, .HEAD, 2⟩, ⟨7, .CLOTHES, 2⟩,
        ⟨11, .SHOES, 2⟩, ⟨4, .HEAD, 3⟩, ⟨8, .CLOTHES, 3⟩, ⟨12, .SHOES, 3⟩] :
        List (AbilityCell Nat)) =
      .ok ((1, 2, 3, 4), (5, 6, 7, 8), (9, 10, 11, 12)) :=
  c1_ability_round_trip (((1, 2, 3, 4), (5, 6, 7, 8), (9, 10, 11, 12)) :
    BuildAbilitiesTuple Nat) _ (by decide)

/-- C3: ability decode fails with the ShapeError
`"expected 12 abilities"` exactly when the input collection does not hold
12 cells; with exactly 12 cells it never fails on count grounds. -/
theorem c3_decode_shape_error_iff {α : Type} (l : List (AbilityCell α)) :
    dbAbilitiesToArrayOfArrays l = .error "expected 12 abilities" ↔ l.length ≠ 12 := by
  unfold dbAbilitiesToArrayOfArrays sliceAbilities
  have hlen : ((List.insertionSort cellLe l).map (fun a => a.ability)).length
      = l.length := by simp
  split
  case isTrue hc => simp [hlen ▸ hc]
  case isFalse hc => simp [hlen ▸ hc]

/-- C10: ability decode succeeds if and only if the input holds exactly 12
cells; duplicate or gapped `(gearType, slotIndex)` pairs are not checked —
only the count is. -/
theorem c10_decode_ok_iff_twelve {α : Type} (l : List (AbilityCell α)) :
    (∃ m, dbAbilitiesToArrayOfArrays l = .ok m) ↔ l.length = 12 := by
  unfold dbAbilitiesToArrayOfArrays sliceAbilities
  have hlen : ((List.insertionSort cellLe l).map (fun a => a.ability)).length
      = l.length := by simp
  split
  case isTrue hc => simp [hlen ▸ hc]
  case isFalse hc => simp [hlen ▸ hc]

/-- C5: mode-set encoding is canonical — two duplicate-free mode lists
holding the same modes encode to the same serialized value, and an absent
or empty mode list encodes to the absence marker. -/
theorem c5_mode_encoding_canonical (l1 l2 : List ModeShort)
    (h1 : l1.Nodup) (h2 : l2.Nodup) (hset : ∀ m, m ∈ l1 ↔ m ∈ l2) :
    modesValue (some l1) = modesValue (some l2) ∧
      modesValue none = none ∧ modesValue (some []) = none := by
  have hp : l1.Perm l2 := (List.perm_ext_iff_of_nodup h1 h2).mpr hset
  have hsort : List.insertionSort modeLe l1 = List.insertionSort modeLe l2 :=
    List.eq_of_perm_of_sorted
      (((List.perm_insertionSort modeLe l1).trans hp).trans
        (List.perm_insertionSort modeLe l2).symm)
      (List.sorted_insertionSort modeLe l1)
      (List.sorted_insertionSort modeLe l2)
  refine ⟨?_, rfl, rfl⟩
  simp only [modesValue]
  rw [hsort, hp.length_eq]

/-- Witness for C5: `[SZ, TW]` and `[TW, SZ]` encode identically. -/
theorem c5_mode_encoding_canonical_witness :
    modesValue (some [.SZ, .TW]) = modesValue (some [.TW, .SZ]) ∧
      modesValue none = none ∧ modesValue (some []) = none :=
  c5_mode_encoding_canonical [.SZ, .TW] [.TW, .SZ] (by decide) (by decide)
    (fun m => by cases m <;> simp)

/-- C7: the encode step inside `create` emits exactly 12 cells, the one at
flattened position `4*r + c` holding gear type `gearOrder[r]`, slot index
`c`, and ability `m[r][c]`; no cell is skipped or duplicated. -/
theorem c7_encode_cells {α : Type} (m : BuildAbilitiesTuple α) (r c : Nat)
    (hr : r < 3) (hc : c < 4) :
    (createAbilityCells m).length = 12 ∧
    (createAbilityCells m).get
        ⟨4 * r + c, by rw [length_createAbilityCells]; omega⟩ =
      ⟨mAt m r c, gearOrder.get ⟨r, by simp [gearOrder]; omega⟩, c⟩ := by
  refine ⟨rfl, ?_⟩
  interval_cases r <;> interval_cases c <;> rfl

/-- Witness for C7 at a concrete matrix and the last cell position. -/
theorem c7_encode_cells_witness :
    ((createAbilityCells (((1, 2, 3, 4), (5, 6, 7, 8), (9, 10, 11, 12)) :
        BuildAbilitiesTuple Nat)).length = 12 ∧
      (createAbilityCells (((1, 2, 3, 4), (5, 6, 7, 8), (9, 10, 11, 12)) :
        BuildAbilitiesTuple Nat)).get ⟨4 * 2 + 3, by rw [length_createAbilityCells]; omega⟩ =
        ⟨mAt (((1, 2, 3, 4), (5, 6, 7, 8), (9, 10, 11, 12)) :
          BuildAbilitiesTuple Nat) 2 3, gearOrder.get ⟨2, by simp [gearOrder]⟩, 3⟩) :=
  c7_encode_cells (((1, 2, 3, 4), (5, 6, 7, 8), (9, 10, 11, 12)) :
    BuildAbilitiesTuple Nat) 2 3 (by decide) (by decide)

/-- C2: the multi-step write operations `create` and `updateByReplacing`
are atomic — when the operation reports a failure (any statement of the
sequence failed, including the delete preceding the recreate), the storage
state after the operation equals the state before it began. -/
theorem c2_write_ops_atomic (fl : Nat → Bool) (b : CreateArgs) (u : UpdateArgs)
    (st : DbState) (e1 e2 : String)
    (h1 : (create fl b st).2 = some e1)
    (h2 : (updateByReplacing fl u st).2 = some e2) :
    (create fl b st).1 = st ∧ (updateByReplacing fl u st).1 = st :=
  ⟨sqlTransaction_rollback _ st e1 h1, sqlTransaction_rollback _ st e2 h2⟩

/-- Concrete ability matrix used by the witnesses. -/
def abilitiesW : BuildAbilitiesTuple Ability :=
  (("a", "b", "c", "d"), ("e", "f", "g", "h"), ("i", "j", "k", "l"))

/-- Concrete pre-existing storage used by the witnesses. -/
def stW : DbState :=
  { builds := [{ id := 7, ownerId := 1, title := "old", description := none,
                 modes := none, headGearSplId := 0, clothesGearSplId := 0,
                 shoesGearSplId := 0, «private» := false }],
    buildWeapons := [⟨7, 100⟩],
    buildAbilities := [],
    nextId := 8 }

/-- Concrete create arguments used by the witnesses. -/
def cargsW : CreateArgs :=
  { ownerId := 1, title := "new", description := some "d",
    modes := some [.TW, .SZ], headGearSplId := 1, clothesGearSplId := 2,
    shoesGearSplId := 3, weaponSplIds := [200, 100],
    abilities := abilitiesW, «private» := false }

/-- Concrete update arguments used by the witnesses. -/
def uargsW : UpdateArgs := { toCreateArgs := cargsW, id := 7 }

/-- Witness for C2: with every statement failing, both operations report
the failure and leave the pre-existing storage untouched. -/
theorem c2_write_ops_atomic_witness :
    (create (fun _ => true) cargsW stW).1 = stW ∧
      (updateByReplacing (fun _ => true) uargsW stW).1 = stW :=
  c2_write_ops_atomic (fun _ => true) cargsW uargsW stW
    "StorageFailure" "StorageFailure" rfl rfl

/-- C4: every build returned by `buildsByUserId` and `buildsByWeaponId`
has its weapons list sorted ascending by `weaponSplId`, whatever order the
weapon entries had in the raw row. -/
theorem c4_weapons_sorted (rowsU : List BuildsByUserRow)
    (rowsW : List BuildsByWeaponIdRow) (bsU : List AugmentedBuild)
    (bsW : List (AugmentedBuild × UserIdentity))
    (hU : buildsByUserId rowsU = .ok bsU)
    (hW : buildsByWeaponIdAugment rowsW = .ok bsW) :
    (∀ b ∈ bsU, b.weapons.Pairwise (fun x y => x.weaponSplId ≤ y.weaponSplId)) ∧
    (∀ p ∈ bsW, p.1.weapons.Pairwise (fun x y => x.weaponSplId ≤ y.weaponSplId)) := by
  constructor
  · intro b hb
    obtain ⟨row, _, hrow⟩ := mapRows_mem augmentBuild rowsU bsU hU b hb
    rw [augmentBuild_ok_weapons row b hrow]
    exact (List.sorted_insertionSort weaponLe row.weapons).imp
      (fun hxy => sub_nonpos.mp hxy)
  · intro p hp
    obtain ⟨row, _, hrow⟩ := mapRows_mem _ rowsW bsW hW p hp
    have hrow2 : augmentBuild row.toBuildsByUserRow = .ok p.1 := by
      cases ha : augmentBuild row.toBuildsByUserRow with
      | error e => rw [ha] at hrow; cases hrow
      | ok b0 => rw [ha] at hrow; cases hrow; rfl
    rw [augmentBuild_ok_weapons row.toBuildsByUserRow p.1 hrow2]
    exact (List.sorted_insertionSort weaponLe row.toBuildsByUserRow.weapons).imp
      (fun hxy => sub_nonpos.mp hxy)

/-- Concrete raw row (unsorted weapons) used by the C4 witness. -/
def rowU0 : BuildsByUserRow :=
  { id := 1, title := "t", description := none, modes := some [.SZ],
    headGearSplId := 1, clothesGearSplId := 2, shoesGearSplId := 3,
    updatedAt := 0, «private» := false,
    weapons := [⟨20, none, none⟩, ⟨10, some 1, some 2⟩],
    abilities := createAbilityCells abilitiesW }

/-- Concrete owner identity used by the C4 witness. -/
def userW : UserIdentity := ⟨"d", "n", "0001", none⟩

/-- Concrete weapon-scoped raw row used by the C4 witness. -/
def rowW0 : BuildsByWeaponIdRow := { toBuildsByUserRow := rowU0, user := userW }

/-- The augmented build the C4 witness expects back. -/
def augU0 : AugmentedBuild :=
  { id := 1, title := "t", description := none, modes := some [.SZ],
    headGearSplId := 1, clothesGearSplId := 2, shoesGearSplId := 3,
    updatedAt := 0, «private» := false,
    weapons := [⟨10, some 1, some 2⟩, ⟨20, none, none⟩],
    abilities := abilitiesW }

/-- Witness for C4 at one concrete row per query, with weapons stored in
descending order. -/
theorem c4_weapons_sorted_witness :
    (∀ b ∈ [augU0], b.weapons.Pairwise (fun x y => x.weaponSplId ≤ y.weaponSplId)) ∧
    (∀ p ∈ [(augU0, userW)],
      p.1.weapons.Pairwise (fun x y => x.weaponSplId ≤ y.weaponSplId)) :=
  c4_weapons_sorted [rowU0] [rowW0] [augU0] [(augU0, userW)] rfl rfl

/-- C6: when the alternate-identifier lookup has no entry for the weapon,
`buildsByWeaponId` still passes the full fixed parameter set, with the
alternate parameter being the sentinel `-1`; the sentinel is not a real
weapon identifier, and the row filter then matches exactly the rows the
primary identifier alone matches. -/
theorem c6_sentinel_alt_id (altMap : List (Int × Int)) (weaponId lim wsplId : Int)
    (hnone : weaponIdToAltIdGet altMap weaponId = none)
    (hreal : isRealWeaponId wsplId) :
    (buildsByWeaponIdParams altMap weaponId lim).weaponId = weaponId ∧
    (buildsByWeaponIdParams altMap weaponId lim).altWeaponId = -1 ∧
    (buildsByWeaponIdParams altMap weaponId lim).limit = lim ∧
    ¬ isRealWeaponId (buildsByWeaponIdParams altMap weaponId lim).altWeaponId ∧
    (rowMatchesWeaponFilter (buildsByWeaponIdParams altMap weaponId lim) wsplId ↔
      wsplId = weaponId) := by
  have halt : (buildsByWeaponIdParams altMap weaponId lim).altWeaponId = -1 := by
    unfold buildsByWeaponIdParams
    rw [hnone]
    rfl
  refine ⟨rfl, halt, rfl, ?_, ?_⟩
  · rw [halt]
    unfold isRealWeaponId
    omega
  · unfold rowMatchesWeaponFilter
    rw [halt]
    unfold isRealWeaponId at hreal
    constructor
    · intro h
      rcases h with h | h
      · exact h
      · omega
    · exact fun h => Or.inl h

/-- Witness for C6: weapon 30 has no alternate in the lookup `[(10, 20)]`. -/
theorem c6_sentinel_alt_id_witness :
    (buildsByWeaponIdParams [(10, 20)] 30 5).weaponId = 30 ∧
    (buildsByWeaponIdParams [(10, 20)] 30 5).altWeaponId = -1 ∧
    (buildsByWeaponIdParams [(10, 20)] 30 5).limit = 5 ∧
    ¬ isRealWeaponId (buildsByWeaponIdParams [(10, 20)] 30 5).altWeaponId ∧
    (rowMatchesWeaponFilter (buildsByWeaponIdParams [(10, 20)] 30 5) 7 ↔ (7 : Int) = 30) :=
  c6_sentinel_alt_id [(10, 20)] 30 5 7 rfl (by decide)

/-- C8: `countByUserId` returns the integer 0, not an error, when no
builds match the owner/visibility filter; the defensive missing-row branch
also yields 0. -/
theorem c8_count_zero_when_no_match (storage : List BuildRow)
    (pred : BuildRow → Bool) (h : ∀ r ∈ storage, pred r = false) :
    countByUserId (countByUserIdStmGet storage pred) = 0 ∧
      countByUserId none = 0 := by
  refine ⟨?_, rfl⟩
  unfold countByUserId countByUserIdStmGet
  have hf : storage.filter pred = [] := by
    rw [List.filter_eq_nil_iff]
    intro a ha
    simp [h a ha]
  rw [hf]
  rfl

/-- Witness for C8 with one stored row matched by nothing. -/
theorem c8_count_zero_when_no_match_witness :
    countByUserId (countByUserIdStmGet
      [{ id := 7, ownerId := 1, title := "old", description := none,
         modes := none, headGearSplId := 0, clothesGearSplId := 0,
         shoesGearSplId := 0, «private» := false }] (fun _ => false)) = 0 ∧
      countByUserId none = 0 :=
  c8_count_zero_when_no_match _ (fun _ => false) (fun _ _ => rfl)

/-! ### C9 helpers -/

theorem foldl_txStep_stmts (t : List TxEv)
    (h : ∀ e ∈ t, e ≠ .begin ∧ e ≠ .commit) :
    ∀ acc, t.foldl txStep acc = acc := by
  induction t with
  | nil => intro acc; rfl
  | cons e t ih =>
    intro acc
    have he := h e (List.mem_cons_self e t)
    have ht : ∀ x ∈ t, x ≠ .begin ∧ x ≠ .commit :=
      fun x hx => h x (List.mem_cons_of_mem e hx)
    have hstep : txStep acc e = acc := by
      cases e
      · exact absurd rfl he.1
      · exact absurd rfl he.2
      · rfl
      · rfl
      · rfl
    rw [List.foldl_cons, hstep]
    exact ih ht acc

theorem maxOpenTx_wrap0 (body : List TxEv)
    (h : ∀ e ∈ body, e ≠ .begin ∧ e ≠ .commit) :
    maxOpenTx (txWrap 0 body) = 1 := by
  unfold maxOpenTx txWrap
  rw [if_pos rfl]
  show (List.foldl txStep (1, 1) (body ++ [TxEv.commit])).2 = 1
  rw [List.foldl_append, foldl_txStep_stmts body h (1, 1)]
  rfl

theorem createBodyTrace_no_ctl (b : CreateArgs) :
    ∀ e ∈ createBodyTrace b, e ≠ .begin ∧ e ≠ .commit := by
  intro e he
  unfold createBodyTrace at he
  rcases List.mem_cons.mp he with rfl | he2
  · exact ⟨fun hc => TxEv.noConfusion hc, fun hc => TxEv.noConfusion hc⟩
  · rcases List.mem_append.mp he2 with he3 | he3 <;>
      obtain ⟨_, _, rfl⟩ := List.mem_map.mp he3 <;>
      exact ⟨fun hc => TxEv.noConfusion hc, fun hc => TxEv.noConfusion hc⟩

theorem createTrace1_no_ctl (b : CreateArgs) :
    ∀ e ∈ createTrace 1 b, e ≠ .begin ∧ e ≠ .commit := by
  intro e he
  unfold createTrace txWrap at he
  rw [if_neg (by omega)] at he
  rcases List.mem_cons.mp he with rfl | he2
  · exact ⟨fun hc => TxEv.noConfusion hc, fun hc => TxEv.noConfusion hc⟩
  · rcases List.mem_append.mp he2 with he3 | he3
    · exact createBodyTrace_no_ctl b e he3
    · rcases List.mem_singleton.mp he3 with rfl
      exact ⟨fun hc => TxEv.noConfusion hc, fun hc => TxEv.noConfusion hc⟩

/-- C9: no operation of this layer opens a second transaction while one is
open — along the traces of `create`, `updateByReplacing` (whose inner
`create` call runs nested in the already-open transaction) and
`deleteById`, at most one transaction is ever open. -/
theorem c9_no_nested_transaction (b : CreateArgs) (u : UpdateArgs) :
    maxOpenTx (createTrace 0 b) ≤ 1 ∧
      maxOpenTx (updateByReplacingTrace u) ≤ 1 ∧
      maxOpenTx deleteByIdTrace ≤ 1 := by
  refine ⟨?_, ?_, by decide⟩
  · exact le_of_eq (maxOpenTx_wrap0 _ (createBodyTrace_no_ctl b))
  · rw [updateByReplacingTrace]
    refine le_of_eq (maxOpenTx_wrap0 _ ?_)
    intro e he
    rcases List.mem_cons.mp he with rfl | he2
    · exact ⟨fun hc => TxEv.noConfusion hc, fun hc => TxEv.noConfusion hc⟩
    · exact createTrace1_no_ctl u.toCreateArgs e he2

end Builds
